import Mathlib

/-!
Verification of the MD2 hash engine exposed by
src/app/pylibs/osx64/Cryptodome/Hash/MD2.py.

The Python file is a thin wrapper: the class MD2Hash holds an owned native
state and delegates md2_init / md2_update / md2_digest / md2_copy to the
compiled library Cryptodome.Hash._MD2, whose source is not part of the
repository tree.  Following the specification, the native engine is modelled
here from the spec (sections 3, 4.1 to 4.5), which itself defers the exact
permutation table and the 18-round carry recurrence to RFC 1319.

Bytes are Nat values below 256 and byte strings are lists of Nat.  The two
fixed-width byte arrays of the state (the 48-byte working buffer and the
16-byte checksum) are packed little-endian into a single Nat — byte k
occupies bits 8k to 8k+7 — accessed through getByte and setByte; the
partial-block accumulator, whose length varies, stays a list.
-/

/-- Byte k of a packed byte array: bits 8k to 8k+7. -/
def getByte (x k : Nat) : Nat := (x >>> (8 * k)) &&& 255

/-- Packed byte array x with byte k replaced by v: the bytes above k, then
v, then the bytes below k. -/
def setByte (x k v : Nat) : Nat :=
  (x >>> (8 * (k + 1))) <<< (8 * (k + 1)) + v <<< (8 * k) + (x &&& (1 <<< (8 * k) - 1))

/-- Modelled from the spec (section 4.1): the fixed 256-entry substitution
table of RFC 1319 Appendix A, embedded verbatim as the spec requires.  The
native table lives in the compiled Cryptodome.Hash._MD2 library, absent from
the source tree. -/
def PI_SUBST : List Nat :=
  [41, 46, 67, 201, 162, 216, 124, 1, 61, 54, 84, 161, 236, 240, 6,
   19, 98, 167, 5, 243, 192, 199, 115, 140, 152, 147, 43, 217, 188,
   76, 130, 202, 30, 155, 87, 60, 253, 212, 224, 22, 103, 66, 111, 24,
   138, 23, 229, 18, 190, 78, 196, 214, 218, 158, 222, 73, 160, 251,
   245, 142, 187, 47, 238, 122, 169, 104, 121, 145, 21, 178, 7, 63,
   148, 194, 16, 137, 11, 34, 95, 33, 128, 127, 93, 154, 90, 144, 50,
   39, 53, 62, 204, 231, 191, 247, 151, 3, 255, 25, 48, 179, 72, 165,
   181, 209, 215, 94, 146, 42, 172, 86, 170, 198, 79, 184, 56, 210,
   150, 164, 125, 182, 118, 252, 107, 226, 156, 116, 4, 241, 69, 157,
   112, 89, 100, 113, 135, 32, 134, 91, 207, 101, 230, 45, 168, 2, 27,
   96, 37, 173, 174, 176, 185, 246, 28, 70, 97, 105, 52, 64, 126, 15,
   85, 71, 163, 35, 221, 81, 175, 58, 195, 92, 249, 206, 186, 197,
   234, 38, 44, 83, 13, 110, 133, 40, 132, 9, 211, 223, 205, 244, 65,
   129, 77, 82, 106, 220, 55, 200, 108, 193, 171, 250, 36, 225, 123,
   8, 12, 189, 177, 74, 120, 136, 149, 139, 227, 99, 232, 109, 233,
   203, 213, 254, 59, 0, 29, 57, 242, 239, 183, 14, 102, 88, 208, 228,
   166, 119, 114, 248, 235, 117, 75, 10, 49, 68, 80, 180, 143, 237,
   31, 26, 219, 153, 141, 51, 159, 17, 131, 20]

/-- The permutation table packed little-endian into one Nat — byte t is
PI_SUBST[t] — so that a lookup is a single shift-and-mask; the theorem
PI_PACKED_eq below checks this literal against the table byte by byte. -/
def PI_PACKED : Nat :=
  2589398550976022879268932338829854780651468082905613542557127970338414280054795993246487494910632308334655661512648918763311981806639004121341039411740801742850152709230906768619571017347404027779164905711639457378836113195198253580264636899872053074037187895029120657880587397305339245445318785702620604067276713197985443015417086188295106792452689149426667980861324181486504172184484020418187085163724152480523759331969564903720457826023527642400796684230842393995830744265829232772857624489461152834639286355444085590901719029979211882445069721234220520469979059324055357922620740986443296078577825749048880213545

/-- Modelled from the spec (section 3): the DigestState owned by the native
engine behind the MD2Hash wrapper.  X is the 48-byte working buffer (its
first 16 bytes double as the running digest) and checksum the 16-byte
running checksum, both packed little-endian into a Nat; buf is the input
accumulator of fewer than 16 pending bytes, and the count totalBufferedLen
is buf.length. -/
structure MD2State where
  X : Nat
  checksum : Nat
  buf : List Nat
deriving Repr, DecidableEq

/-- Modelled from the spec (section 3, lifecycle): the state created by the
native md2_init called from MD2Hash.__init__ — all buffers zero-filled, no
pending input. -/
def md2_init : MD2State :=
  { X := 0, checksum := 0, buf := [] }

/-- One pass of the inner compression loop over the positions ks: at each
position k the carry t becomes X[k] XOR S[t], stored back at position k
(RFC 1319 recurrence, as directed by spec section 4.1 and the open question
of section 9).  The conditional scrutinizes the updated accumulator so that
kernel evaluation keeps it a literal; both branches coincide. -/
def roundLoop : List Nat → Nat → Nat → Nat × Nat
  | [], x, t => (x, t)
  | k :: ks, x, t =>
    let v := getByte x k ^^^ getByte PI_PACKED t
    let x' := setByte x k v
    if x' = 0 then roundLoop ks x' v else roundLoop ks x' v

/-- The 18 compression rounds over the 48-byte working buffer, iterated
over the round indices js: inside round j the carry threads through all 48
positions, and at the round boundary the round index is added modulo 256
(RFC 1319). -/
def passLoop : List Nat → Nat → Nat → Nat × Nat
  | [], x, t => (x, t)
  | j :: js, x, t =>
    let q := roundLoop (List.range 48) x t
    let t' := (q.2 + j) % 256
    if t' = 0 then passLoop js q.1 t' else passLoop js q.1 t'

/-- Loading loop of the compression round over the block positions js: put
block[j] at X[16+j] and block[j] XOR X[j] at X[32+j].  The conditional
again only keeps the accumulator a literal during kernel evaluation. -/
def loadLoop : List Nat → List Nat → Nat → Nat
  | [], _, x => x
  | j :: js, block, x =>
    let b := block.getD j 0
    let x' := setByte (setByte x (16 + j) b) (32 + j) (b ^^^ getByte x j)
    if x' = 0 then loadLoop js block x' else loadLoop js block x'

/-- Modelled from the spec (section 4.3 step 2): one compression round on a
full 16-byte block — load the block into X[16:32], set X[32:48] to the XOR
of the block with X[0:16], then run the 18 rounds with carry 0. -/
def md2_compress (X : Nat) (block : List Nat) : Nat :=
  (passLoop (List.range 18) (loadLoop (List.range 16) block X) 0).1

/-- Checksum loop over the block positions js: checksum[j] becomes
checksum[j] XOR S[block[j] XOR L], the carry L threading across bytes.  The
conditional keeps the accumulator a literal during kernel evaluation. -/
def chksumLoop : List Nat → List Nat → Nat → Nat → Nat × Nat
  | [], _, c, l => (c, l)
  | j :: js, block, c, l =>
    let v := getByte c j ^^^ getByte PI_PACKED ((block.getD j 0) ^^^ l)
    let c' := setByte c j v
    if c' = 0 then chksumLoop js block c' v else chksumLoop js block c' v

/-- Modelled from the spec (section 4.3 step 3): the per-block checksum
update — the loop over all 16 positions, with the carry initialized from
checksum[15] so that it threads across blocks as well (0 at creation). -/
def md2_update_chksum (C : Nat) (block : List Nat) : Nat :=
  (chksumLoop (List.range 16) block C (getByte C 15)).1

/-- Modelled from the spec (section 4.3 steps 1, 2 and 4): absorb a single
byte — append it to the accumulator; when the accumulator reaches 16 bytes
run the compression round and the checksum update and clear it. -/
def absorbByte (s : MD2State) (b : Nat) : MD2State :=
  let buf := s.buf ++ [b]
  if buf.length = 16 then
    { X := md2_compress s.X buf,
      checksum := md2_update_chksum s.checksum buf,
      buf := [] }
  else
    { s with buf := buf }

/-- Modelled from the spec (section 4.3): the native md2_update behind
MD2Hash.update — bytes stream into the accumulator, every completed
16-byte block is compressed and checksummed, leftovers stay buffered. -/
def md2_update (s : MD2State) (data : List Nat) : MD2State :=
  data.foldl absorbByte s

/-- The 16 checksum bytes of a state, unpacked in order, used as the final
block during finalization. -/
def checksumBytes (s : MD2State) : List Nat :=
  (List.range 16).map (fun k => getByte s.checksum k)

/-- Modelled from the spec (section 4.4 steps 2 and 3): finalization on the
scratch clone — absorb padLen = 16 - totalBufferedLen bytes of value padLen
(running the ordinary compression and checksum round), then compress the
accumulated checksum as one last block without a checksum update. -/
def md2_finalize (s : MD2State) : MD2State :=
  let t := md2_update s (List.replicate (16 - s.buf.length) (16 - s.buf.length))
  { t with X := md2_compress t.X (checksumBytes t) }

/-- Modelled from the spec (section 4.4): the 16 digest bytes returned by
the native md2_digest — the first 16 bytes of the finalized clone's working
buffer. -/
def md2_digest (s : MD2State) : List Nat :=
  (List.range 16).map (fun k => getByte (md2_finalize s).X k)

/-- Modelled from the spec (section 4.5): the native md2_copy behind
MD2Hash.copy — a deep duplicate with identical contents of all three
buffers. -/
def md2_copy (s : MD2State) : MD2State :=
  { X := s.X, checksum := s.checksum, buf := s.buf }

/-- The hex character for a value below 16, as produced by the format
"%02x" used in MD2Hash.hexdigest. -/
def hexChar (n : Nat) : Char :=
  Char.ofNat (if n < 10 then 48 + n else 87 + n)

/-- The two lowercase hex characters of one byte, per "%02x" in
MD2Hash.hexdigest. -/
def byteToHex (b : Nat) : List Char :=
  [hexChar (b / 16), hexChar (b % 16)]

/-- Numeric value of a hex character (inverse of hexChar on 0..15), used to
state that hexdigest is a faithful rendering of the digest bytes. -/
def hexVal (c : Char) : Nat :=
  if c.toNat < 97 then c.toNat - 48 else c.toNat - 87

/-- Decode a character list two characters at a time into bytes; the left
inverse of rendering through byteToHex. -/
def decodeHexPairs : List Char → List Nat
  | c1 :: c2 :: rest => (hexVal c1 * 16 + hexVal c2) :: decodeHexPairs rest
  | _ => []

namespace MD2Hash

/-- MD2.py line 75: the size of the resulting hash in bytes. -/
def digest_size : Nat := 16

/-- MD2.py line 77: the internal block size of the hash algorithm in
bytes. -/
def block_size : Nat := 64

/-- MD2.py line 79: the ASN.1 object ID of MD2. -/
def oid : String := "1.2.840.113549.2.2"

/-- MD2.py lines 81 to 90, MD2Hash.__init__: build the fresh native state
and, when data is present and nonempty (Python truthiness of the byte
string), absorb it. -/
def mk (data : Option (List Nat)) : MD2State :=
  match data with
  | none => md2_init
  | some d => if d.isEmpty then md2_init else md2_update md2_init d

/-- Modelled from the spec (section 7): the native md2_update result code
checked by MD2Hash.update lines 113 to 115 — the spec makes the core total
over byte sequences, so the code is always 0 and the raise is dead. -/
def updateResult (s : MD2State) (data : List Nat) : Nat := 0

/-- Modelled from the spec (section 7): the native md2_digest result code
checked by MD2Hash.digest lines 131 to 133 — always 0, the raise is dead. -/
def digestResult (s : MD2State) : Nat := 0

/-- Modelled from the spec (section 7): the native md2_copy result code
checked by MD2Hash.copy lines 163 to 164 — always 0, the raise is dead. -/
def copyResult (s : MD2State) : Nat := 0

/-- MD2.py lines 92 to 115, MD2Hash.update as the caller observes it: raise
ValueError when the native result code is nonzero, otherwise the state has
absorbed the bytes. -/
def updateCall (s : MD2State) (data : List Nat) : Except String MD2State :=
  if updateResult s data ≠ 0 then Except.error "ValueError"
  else Except.ok (md2_update s data)

/-- MD2.py lines 117 to 135, MD2Hash.digest as the caller observes it: the
native call receives the state as a const pointer and finalizes a scratch
clone, so the method returns the digest bytes and leaves the state as it
was; ValueError when the native result code is nonzero. -/
def digestCall (s : MD2State) : Except String (List Nat × MD2State) :=
  if digestResult s ≠ 0 then Except.error "ValueError"
  else Except.ok (md2_digest s, s)

/-- MD2.py lines 149 to 165, MD2Hash.copy as the caller observes it: a
fresh object whose state the native md2_copy overwrites with a duplicate of
the receiver's; ValueError when the native result code is nonzero. -/
def copyCall (s : MD2State) : Except String MD2State :=
  if copyResult s ≠ 0 then Except.error "ValueError"
  else Except.ok (md2_copy s)

/-- MD2.py lines 137 to 147, MD2Hash.hexdigest: the "%02x" rendering of
each digest byte, joined into one string. -/
def hexdigest (s : MD2State) : String :=
  String.mk ((md2_digest s).flatMap byteToHex)

/-- MD2.py lines 167 to 168, the instance method MD2Hash.new: ignore the
receiver and return MD2Hash(data). -/
def methodNew (receiver : MD2State) (data : Option (List Nat)) : MD2State :=
  mk data

end MD2Hash

/-- MD2.py lines 171 to 182, the module-level new: MD2Hash().new(data). -/
def moduleNew (data : Option (List Nat)) : MD2State :=
  MD2Hash.methodNew (MD2Hash.mk none) data

/-- MD2.py line 185: the module-level digest_size. -/
def digest_size : Nat := MD2Hash.digest_size

/-- MD2.py line 188: the module-level block_size. -/
def block_size : Nat := MD2Hash.block_size

/-- The bytes of an ASCII string, for stating the known-answer vectors. -/
def strBytes (s : String) : List Nat := s.data.map Char.toNat

/-! Shared lemmas. -/

set_option maxRecDepth 4000 in
/-- The packed table literal agrees with the RFC 1319 table list at every
index. -/
theorem PI_PACKED_eq : ∀ t : Fin 256, getByte PI_PACKED t.val = PI_SUBST.getD t.val 0 := by
  decide

theorem md2_update_nil (s : MD2State) : md2_update s [] = s := rfl

theorem md2_update_append (s : MD2State) (a b : List Nat) :
    md2_update s (a ++ b) = md2_update (md2_update s a) b :=
  List.foldl_append _ _ _ _

theorem md2_update_chunks (chunks : List (List Nat)) :
    ∀ s : MD2State, chunks.foldl md2_update s = md2_update s chunks.flatten := by
  induction chunks with
  | nil => intro s; rfl
  | cons c cs ih =>
    intro s
    rw [List.foldl_cons, ih (md2_update s c), List.flatten_cons, md2_update_append]

theorem absorbByte_buf_len (s : MD2State) (b : Nat) (h : s.buf.length < 16) :
    (absorbByte s b).buf.length = (s.buf.length + 1) % 16 := by
  by_cases hc : s.buf.length = 15
  · simp [absorbByte, hc]
  · have hne : ¬s.buf.length + 1 = 16 := by omega
    have hlt : s.buf.length + 1 < 16 := by omega
    simp [absorbByte, hne, Nat.mod_eq_of_lt hlt]

theorem md2_update_buf_len (d : List Nat) :
    ∀ s : MD2State, s.buf.length < 16 →
      (md2_update s d).buf.length = (s.buf.length + d.length) % 16 := by
  induction d with
  | nil => intro s h; simpa [md2_update] using (Nat.mod_eq_of_lt h).symm
  | cons b d ih =>
    intro s h
    have h1 := absorbByte_buf_len s b h
    have h2 : (absorbByte s b).buf.length < 16 := by
      rw [h1]; exact Nat.mod_lt _ (by norm_num)
    have h3 := ih (absorbByte s b) h2
    show (md2_update (absorbByte s b) d).buf.length = _
    rw [h3, h1, Nat.mod_add_mod, List.length_cons]
    omega

theorem update_init_buf_len (d : List Nat) :
    (md2_update md2_init d).buf.length = d.length % 16 := by
  simpa [md2_init] using md2_update_buf_len d md2_init (by simp [md2_init])

theorem getByte_lt (x k : Nat) : getByte x k < 256 := by
  have : getByte x k ≤ 255 := Nat.and_le_right
  omega

theorem digest_bytes_lt (s : MD2State) : ∀ b ∈ md2_digest s, b < 256 := by
  intro b hb
  obtain ⟨k, hk, rfl⟩ := List.mem_map.mp hb
  exact getByte_lt _ _

/-- The sixteen lowercase hex characters. -/
def hexAlphabet : List Char := "0123456789abcdef".data

theorem hexChar_mem : ∀ n : Fin 16, hexChar n.val ∈ hexAlphabet := by decide

theorem hexVal_hexChar : ∀ n : Fin 16, hexVal (hexChar n.val) = n.val := by decide

theorem length_flatMap_byteToHex (l : List Nat) :
    (l.flatMap byteToHex).length = 2 * l.length := by
  induction l with
  | nil => rfl
  | cons b l ih => simp [byteToHex, ih]; omega

theorem flatMap_mem_alphabet (l : List Nat) (hl : ∀ b ∈ l, b < 256) :
    ∀ c ∈ l.flatMap byteToHex, c ∈ hexAlphabet := by
  intro c hc
  obtain ⟨b, hb, hcb⟩ := List.mem_flatMap.mp hc
  have hb256 := hl b hb
  have hdiv : b / 16 < 16 := by omega
  have hmod : b % 16 < 16 := by omega
  simp only [byteToHex, List.mem_cons, List.not_mem_nil, or_false] at hcb
  rcases hcb with rfl | rfl
  · simpa using hexChar_mem ⟨b / 16, hdiv⟩
  · simpa using hexChar_mem ⟨b % 16, hmod⟩

theorem decodeHexPairs_flatMap (l : List Nat) (hl : ∀ b ∈ l, b < 256) :
    decodeHexPairs (l.flatMap byteToHex) = l := by
  induction l with
  | nil => rfl
  | cons b l ih =>
    have hb : b < 256 := hl b (by simp)
    have hdiv : b / 16 < 16 := by omega
    have hmod : b % 16 < 16 := by omega
    have h1 := hexVal_hexChar ⟨b / 16, hdiv⟩
    have h2 := hexVal_hexChar ⟨b % 16, hmod⟩
    simp only at h1 h2
    have htail := ih (fun x hx => hl x (by simp [hx]))
    have hb' : b / 16 * 16 + b % 16 = b := by omega
    have hshow : (b :: l).flatMap byteToHex
        = hexChar (b / 16) :: hexChar (b % 16) :: l.flatMap byteToHex := by
      simp [List.flatMap_cons, byteToHex]
    rw [hshow]
    simp only [decodeHexPairs, h1, h2, htail, hb']

/-! Claim theorems. -/

set_option maxRecDepth 4000 in
/-- C1: for the empty message and the messages "a", "abc" and
"message digest", creating a fresh hash state, absorbing the message and
taking the digest yields the RFC 1319 known-answer values, rendered as 32
lowercase hex characters. -/
theorem md2_known_answer_vectors :
    MD2Hash.hexdigest (md2_update md2_init (strBytes ""))
        = "8350e5a3e24c153df2275c9f80692773" ∧
    MD2Hash.hexdigest (md2_update md2_init (strBytes "a"))
        = "32ec01ec4a6dac72c0ab96fb34c0b5d1" ∧
    MD2Hash.hexdigest (md2_update md2_init (strBytes "abc"))
        = "da853b0d3f88d99b30283a69e6ded6bb" ∧
    MD2Hash.hexdigest (md2_update md2_init (strBytes "message digest"))
        = "ab4f496bfb2a530b219ff33031fe06b0" :=
  ⟨by decide, by decide, by decide, by decide⟩

/-- C2: absorbing a and then b into any state equals absorbing the single
concatenation a ++ b, and feeding a fixed message in any chunking yields
the identical digest. -/
theorem md2_update_concat_and_chunking (s : MD2State) (a b : List Nat)
    (chunks : List (List Nat)) (h : chunks.flatten = a ++ b) :
    md2_update (md2_update s a) b = md2_update s (a ++ b) ∧
    md2_digest (chunks.foldl md2_update s) = md2_digest (md2_update s (a ++ b)) := by
  constructor
  · exact (md2_update_append s a b).symm
  · rw [md2_update_chunks chunks s, h]

/-- Witness for C2 at a concrete state and chunking. -/
theorem md2_update_concat_and_chunking_witness :
    md2_update (md2_update md2_init [0]) [1, 2] = md2_update md2_init ([0] ++ [1, 2]) ∧
    md2_digest ([[0], [1], [2]].foldl md2_update md2_init)
      = md2_digest (md2_update md2_init ([0] ++ [1, 2])) :=
  md2_update_concat_and_chunking md2_init [0] [1, 2] [[0], [1], [2]] (by decide)

/-- C3: digest does not mutate the hash state — a digest call returning
bytes d1 and leaving state s2 in fact leaves the original state, a second
digest call with no intervening absorb returns identical bytes, and an
absorb after the digest yields exactly what it would have yielded had the
first digest never been called. -/
theorem md2_digest_frame (s s2 : MD2State) (d1 x : List Nat)
    (h : MD2Hash.digestCall s = Except.ok (d1, s2)) :
    s2 = s ∧ d1 = md2_digest s ∧
    MD2Hash.digestCall s2 = Except.ok (d1, s2) ∧
    md2_digest (md2_update s2 x) = md2_digest (md2_update s x) := by
  have h0 : MD2Hash.digestCall s = Except.ok (md2_digest s, s) := rfl
  rw [h0] at h
  have hp : (md2_digest s, s) = (d1, s2) := Except.ok.inj h
  have h1 : md2_digest s = d1 := congrArg Prod.fst hp
  have h2 : s = s2 := congrArg Prod.snd hp
  subst h1
  subst h2
  exact ⟨rfl, rfl, rfl, rfl⟩

/-- Witness for C3 at the fresh state. -/
theorem md2_digest_frame_witness :
    md2_init = md2_init ∧ md2_digest md2_init = md2_digest md2_init ∧
    MD2Hash.digestCall md2_init = Except.ok (md2_digest md2_init, md2_init) ∧
    md2_digest (md2_update md2_init [1]) = md2_digest (md2_update md2_init [1]) :=
  md2_digest_frame md2_init md2_init (md2_digest md2_init) [1] rfl

/-- C4: on every reachable state the pad length 16 - totalBufferedLen lies
in 1..16 and is never 0, padding fills the block exactly (the accumulator
is empty afterwards), and for a message whose length is a multiple of 16 a
full 16-byte block of padding bytes of value 16 is absorbed. -/
theorem md2_padding_full_block (d : List Nat) (s : MD2State)
    (hs : s = md2_update md2_init d) :
    1 ≤ 16 - s.buf.length ∧ 16 - s.buf.length ≤ 16 ∧
    (md2_update s (List.replicate (16 - s.buf.length) (16 - s.buf.length))).buf = [] ∧
    (d.length % 16 = 0 →
      s.buf = [] ∧ List.replicate (16 - s.buf.length) (16 - s.buf.length)
        = List.replicate 16 16) := by
  subst hs
  have hlen := update_init_buf_len d
  have hlt : (md2_update md2_init d).buf.length < 16 := by
    rw [hlen]; exact Nat.mod_lt _ (by norm_num)
  refine ⟨by omega, by omega, ?_, ?_⟩
  · have hp := md2_update_buf_len
      (List.replicate (16 - (md2_update md2_init d).buf.length)
        (16 - (md2_update md2_init d).buf.length))
      (md2_update md2_init d) hlt
    rw [List.length_replicate] at hp
    have : (md2_update (md2_update md2_init d)
        (List.replicate (16 - (md2_update md2_init d).buf.length)
          (16 - (md2_update md2_init d).buf.length))).buf.length = 0 := by
      rw [hp]; omega
    exact List.eq_nil_of_length_eq_zero this
  · intro h0
    have hz : (md2_update md2_init d).buf.length = 0 := by rw [hlen]; exact h0
    exact ⟨List.eq_nil_of_length_eq_zero hz, by rw [hz]⟩

/-- Witness for C4 at the empty message, whose length is a multiple of
16. -/
theorem md2_padding_full_block_witness :
    1 ≤ 16 - md2_init.buf.length ∧ 16 - md2_init.buf.length ≤ 16 ∧
    (md2_update md2_init
      (List.replicate (16 - md2_init.buf.length) (16 - md2_init.buf.length))).buf = [] ∧
    (List.length ([] : List Nat) % 16 = 0 →
      md2_init.buf = [] ∧
        List.replicate (16 - md2_init.buf.length) (16 - md2_init.buf.length)
          = List.replicate 16 16) :=
  md2_padding_full_block [] md2_init rfl

/-- C5: copy produces an independent duplicate with identical contents —
the copied value equals the source state, the wrapper returns it without
error, absorbing into the copy computes exactly what an independently fed
clone of the pre-copy state computes, and the original state's digest is
unchanged. -/
theorem md2_copy_independent (s1 : MD2State) (x : List Nat) :
    md2_copy s1 = s1 ∧
    MD2Hash.copyCall s1 = Except.ok s1 ∧
    md2_update (md2_copy s1) x = md2_update s1 x ∧
    md2_digest s1 = md2_digest (md2_copy s1) :=
  ⟨rfl, rfl, rfl, rfl⟩

/-- C6: constructing a hash object with initial data equals constructing an
empty one and absorbing the data, both for the constructor and for the
module-level new. -/
theorem md2_mk_initial_data (d : List Nat) :
    MD2Hash.mk (some d) = md2_update md2_init d ∧
    moduleNew (some d) = MD2Hash.mk (some d) ∧
    MD2Hash.mk none = md2_init := by
  refine ⟨?_, rfl, rfl⟩
  cases d with
  | nil => rfl
  | cons b t => rfl

/-- C7: the core operations are total — update, digest and copy always
return ok (the ValueError branch on a nonzero native result code is
unreachable), and absorbing the empty byte string leaves the state
bit-identical. -/
theorem md2_core_total (s : MD2State) (d : List Nat) :
    MD2Hash.updateCall s d = Except.ok (md2_update s d) ∧
    MD2Hash.digestCall s = Except.ok (md2_digest s, s) ∧
    MD2Hash.copyCall s = Except.ok (md2_copy s) ∧
    md2_update s [] = s :=
  ⟨rfl, rfl, rfl, rfl⟩

/-- C8: the declared constants are digest_size = 16, block_size = 64 and
oid = "1.2.840.113549.2.2", and the module-level digest_size and
block_size equal the class-level values. -/
theorem md2_declared_constants :
    MD2Hash.digest_size = 16 ∧ MD2Hash.block_size = 64 ∧
    MD2Hash.oid = "1.2.840.113549.2.2" ∧
    digest_size = MD2Hash.digest_size ∧ block_size = MD2Hash.block_size :=
  ⟨rfl, rfl, rfl, rfl, rfl⟩

/-- C9: for every state the digest has exactly 16 bytes, hexdigest is
exactly its 32-character lowercase hexadecimal rendering (every character
a lowercase hex digit, and the character pairs decode back to the digest
bytes), and the digest call leaves the state unchanged. -/
theorem md2_digest_hex_shape (s : MD2State) :
    (md2_digest s).length = 16 ∧
    (MD2Hash.hexdigest s).length = 32 ∧
    (∀ c ∈ (MD2Hash.hexdigest s).data, c ∈ hexAlphabet) ∧
    decodeHexPairs (MD2Hash.hexdigest s).data = md2_digest s ∧
    MD2Hash.digestCall s = Except.ok (md2_digest s, s) := by
  have hlen : (md2_digest s).length = 16 := by simp [md2_digest]
  have hbytes := digest_bytes_lt s
  refine ⟨hlen, ?_, ?_, ?_, rfl⟩
  · show ((md2_digest s).flatMap byteToHex).length = 32
    rw [length_flatMap_byteToHex, hlen]
  · intro c hc
    exact flatMap_mem_alphabet _ hbytes c hc
  · exact decodeHexPairs_flatMap _ hbytes

/-- C10: the instance method new ignores the receiver's accumulated state
entirely — it returns exactly MD2Hash(data), the same value for any two
receivers, and the module-level new agrees; in this value model the
receiver is untouched by construction. -/
theorem md2_method_new_fresh (h1 h2 : MD2State) (data : Option (List Nat)) :
    MD2Hash.methodNew h1 data = MD2Hash.mk data ∧
    MD2Hash.methodNew h1 data = MD2Hash.methodNew h2 data ∧
    moduleNew data = MD2Hash.mk data :=
  ⟨rfl, rfl, rfl⟩
